import Mathlib

set_option maxRecDepth 100000

/-! Verification of the RESP codec, the RDB snapshot decoder, the command
parser and the request evaluator of a small Redis-compatible server written
in Rust.  Bytes are modelled as natural numbers (realizable byte values are
below 256), byte buffers as lists of naturals, wall-clock instants as
milliseconds since the UNIX epoch, and machine-integer arithmetic is made
explicit wherever the source relies on it.  Fallible operations return an
explicit result type; a dedicated result constructor models a Rust panic. -/

namespace Redis

/-- Decimal digits of a natural number, most significant first, as ASCII
bytes; fuel-indexed so that the definition is structural and computes by
kernel reduction.  With fuel above the digit count it agrees with the byte
output of Rust formatting an unsigned integer. -/
def natToDecAux : Nat → Nat → List Nat
  | 0, _ => []
  | fuel + 1, n => if n < 10 then [48 + n] else natToDecAux fuel (n / 10) ++ [48 + n % 10]

/-- ASCII decimal bytes of a natural number (fuel n + 1 always suffices). -/
def natToDecBytes (n : Nat) : List Nat := natToDecAux (n + 1) n

/-- ASCII decimal bytes of an integer, with a leading minus sign when
negative: the bytes Rust produces when formatting a signed integer. -/
def intToDecBytes (i : Int) : List Nat :=
  if i < 0 then 45 :: natToDecBytes i.natAbs else natToDecBytes i.toNat

/-- ASCII digit test. -/
def isDigit (b : Nat) : Bool := 48 ≤ b && b ≤ 57

/-- Value of a list of ASCII digit bytes read in base 10. -/
def digitsVal (bs : List Nat) : Nat := bs.foldl (fun acc b => acc * 10 + (b - 48)) 0

/-- Byte-level model of i64::from_str_radix(s, 10): an optional sign (43 is
the plus sign, 45 the minus sign) followed by at least one digit, with the
value required to fit in a signed 64-bit integer (Rust reports overflow as
a parse error).  The stepwise checked arithmetic of the Rust implementation
fails exactly when the final value is out of range, so the bound is checked
once on the final value. -/
def i64FromDec (bs : List Nat) : Option Int :=
  match bs with
  | [] => none
  | b :: rest =>
    let digits := if b = 43 ∨ b = 45 then rest else b :: rest
    if digits = [] then none
    else if digits.all isDigit then
      let v : Int := if b = 45 then -(digitsVal digits : Int) else (digitsVal digits : Int)
      if -(2 ^ 63) ≤ v ∧ v ≤ 2 ^ 63 - 1 then some v else none
    else none

/-- Two's-complement cast of an i64 value to u64, as performed by the Rust
expression (n as u64) on a value already known to be in i64 range. -/
def i64AsU64 (n : Int) : Nat := (n % (2 ^ 64 : Int)).toNat

/-- Wrapping subtraction on usize, as performed by unchecked release-mode
subtraction a - b.  For operands below 2 ^ 64 this is exactly Rust's
wrapping behaviour; larger operands are not realizable lengths and take the
ordinary branch. -/
def usizeWrapSub (a b : Nat) : Nat :=
  if b ≤ a then a - b else a + (18446744073709551616 - b)

/-- ASCII byte codes of a string literal, used to transcribe the byte-string
literals of the source. -/
def asciiStr (s : String) : List Nat := s.data.map Char.toNat

/-- Position of the first CRLF (byte pair 13 10) in a buffer, as located by
the memmem finder held by RespParser (SEPARATOR in resp_parser.rs). -/
def findSep : List Nat → Option Nat
  | [] => none
  | [_] => none
  | a :: b :: rest => if a = 13 ∧ b = 10 then some 0 else (findSep (b :: rest)).map (· + 1)

/-- RespValue from resp_parser.rs: the RESP wire value model.  Byte-slice
payloads become lists of byte values. -/
inductive RespValue where
  | simpleString : List Nat → RespValue
  | simpleError : List Nat → RespValue
  | simpleInteger : Int → RespValue
  | bulkString : List Nat → RespValue
  | nullBulkString : RespValue
  | array : List RespValue → RespValue
  | nullArray : RespValue

/-- RespError from resp_parser.rs and errors.rs, with the two source
variants merged: the ParseIntError payload of IntParseFailure is dropped
(no claim inspects it) and StringParseFailure is the UTF-8 failure variant
of the errors.rs version used by utils::parse_integer. -/
inductive RespError where
  | unexpectedEnd : RespError
  | unknownStartingByte : Nat → RespError
  | intParseFailure : RespError
  | stringParseFailure : RespError
  | badBulkStringSize : Int → RespError
  | badArraySize : Int → RespError
  | ioError : RespError
deriving DecidableEq

mutual
/-- RespValue::write from resp_parser.rs, with the writer modelled as the
list of bytes it receives.  The integer and length fields are rendered in
ASCII decimal exactly as the source formats them. -/
def RespValue.write : RespValue → List Nat
  | .simpleString contents => 43 :: (contents ++ [13, 10])
  | .simpleError contents => 45 :: (contents ++ [13, 10])
  | .simpleInteger value => 58 :: (intToDecBytes value ++ [13, 10])
  | .bulkString contents => 36 :: (natToDecBytes contents.length ++ [13, 10] ++ contents ++ [13, 10])
  | .nullBulkString => [36, 45, 49, 13, 10]
  | .array vals => 42 :: (natToDecBytes vals.length ++ [13, 10] ++ writeList vals)
  | .nullArray => [42, 45, 49, 13, 10]
/-- Bytes written for a sequence of values, in order (the for loop in the
Array arm of RespValue::write). -/
def writeList : List RespValue → List Nat
  | [] => []
  | v :: vs => v.write ++ writeList vs
end

mutual
/-- Representability predicate for the round-trip law: values that the
running Rust program can actually hold.  Simple strings and errors carry no
CR or LF byte, integers fit in i64, payload bytes fit in a u8, and lengths
fit in usize (bounded here by 2 ^ 63 since Vec capacity cannot exceed
isize::MAX). -/
def reprV : RespValue → Bool
  | .simpleString s => s.all fun b => decide (b ≠ 13 ∧ b ≠ 10 ∧ b < 256)
  | .simpleError s => s.all fun b => decide (b ≠ 13 ∧ b ≠ 10 ∧ b < 256)
  | .simpleInteger i => decide (-(2 ^ 63) ≤ i ∧ i ≤ 2 ^ 63 - 1)
  | .bulkString s => decide (s.length < 2 ^ 63) && s.all fun b => decide (b < 256)
  | .nullBulkString => true
  | .array vs => decide (vs.length < 2 ^ 63) && reprList vs
  | .nullArray => true
/-- Representability of every element of an array. -/
def reprList : List RespValue → Bool
  | [] => true
  | v :: vs => reprV v && reprList vs
end

/-- Result of a parsing step: a value, a structured error, or a Rust panic
(crash), which the source can reach through an out-of-bounds slice. -/
inductive PRes (α : Type) where
  | ok : α → PRes α
  | err : RespError → PRes α
  | crash : PRes α

/-- RespParser::next_word: the slice before the first CRLF and the slice
after it; a buffer with no CRLF is an UnexpectedEnd error. -/
def nextWord (input : List Nat) : PRes (List Nat × List Nat) :=
  match findSep input with
  | none => .err .unexpectedEnd
  | some i => .ok (input.take i, input.drop (i + 2))

/-- RespParser::parse_integer from resp_parser.rs: UTF-8 validation
followed by i64::from_str_radix; both failure forms are IntParseFailure.
A byte string accepted by from_str_radix is ASCII, hence valid UTF-8, so
the composition fails exactly when i64FromDec does. -/
def parseInteger (input : List Nat) : PRes Int :=
  match i64FromDec input with
  | some v => .ok v
  | none => .err .intParseFailure

/-- RespParser::parse_bulk_string.  The third test reproduces the source
expression (size as usize) > (remainder.len() - 2) with its release-mode
wrapping subtraction, and the crash case models the panic of the slice
expression remainder[size..size + 2] when size + 2 exceeds the length
(in a debug build the wrapping subtraction itself panics first; either
way the function panics rather than returning). -/
def parseBulkString (input remainder : List Nat) : PRes (RespValue × List Nat) :=
  match parseInteger input with
  | .err e => .err e
  | .crash => .crash
  | .ok size =>
    if size < -1 then .err (.badBulkStringSize size)
    else if size = -1 then .ok (.nullBulkString, remainder)
    else if size.toNat > usizeWrapSub remainder.length 2 then .err .unexpectedEnd
    else if remainder.length < size.toNat + 2 then .crash
    else if (remainder.drop size.toNat).take 2 ≠ [13, 10] then .err (.badBulkStringSize size)
    else .ok (.bulkString (remainder.take size.toNat), remainder.drop (size.toNat + 2))

/-- One iteration of the for loop in RespParser::parse_array: run the
element parser on the current remainder and append the value; errors and
panics are final, exactly as the early returns of the source loop. -/
def loopStep (next : List Nat → PRes (RespValue × List Nat))
    (acc : PRes (List RespValue × List Nat)) : PRes (List RespValue × List Nat) :=
  match acc with
  | .ok (vals, inp) =>
    match next inp with
    | .ok (v, rest) => .ok (vals ++ [v], rest)
    | .err e => .err e
    | .crash => .crash
  | .err e => .err e
  | .crash => .crash

/-- Iteration combinator for the counted for loops of the source. -/
def iterN (g : α → α) : Nat → α → α
  | 0, a => a
  | n + 1, a => iterN g n (g a)

/-- RespParser::next_value, fuel-indexed on the nesting depth so that the
recursion through parse_array is structural; fuel beyond the array nesting
depth of the input never runs out.  Dispatch on the first byte of the word
(43 +, 45 -, 58 :, 36 dollar, 42 star) follows the source match. -/
def nextValueF : Nat → List Nat → PRes (RespValue × List Nat)
  | 0, _ => .err .unexpectedEnd
  | fuel + 1, input =>
    match nextWord input with
    | .err e => .err e
    | .crash => .crash
    | .ok (word, remainder) =>
      match word with
      | [] => .err .unexpectedEnd
      | c :: wrest =>
        if c = 43 then .ok (.simpleString wrest, remainder)
        else if c = 45 then .ok (.simpleError wrest, remainder)
        else if c = 58 then
          match parseInteger wrest with
          | .ok i => .ok (.simpleInteger i, remainder)
          | .err e => .err e
          | .crash => .crash
        else if c = 36 then parseBulkString wrest remainder
        else if c = 42 then
          match parseInteger wrest with
          | .err e => .err e
          | .crash => .crash
          | .ok size =>
            if size < -1 then .err (.badArraySize size)
            else if size = -1 then .ok (.nullArray, remainder)
            else
              match iterN (loopStep (nextValueF fuel)) size.toNat (.ok ([], remainder)) with
              | .ok (vals, rest) => .ok (.array vals, rest)
              | .err e => .err e
              | .crash => .crash
        else .err (.unknownStartingByte c)

/-- RespParser::next_value on a whole buffer: the fuel one beyond the buffer
length dominates any possible nesting depth. -/
def nextValue (input : List Nat) : PRes (RespValue × List Nat) :=
  nextValueF (input.length + 1) input

/-- ValueType from redis_handler.rs: stored bytes plus an optional absolute
expiration instant, modelled in milliseconds since the UNIX epoch. -/
structure ValueType where
  value : List Nat
  expiration : Option Nat
deriving DecidableEq

/-- ValueType::new. -/
def ValueType.new (value : List Nat) : ValueType := ⟨value, none⟩

/-- ValueType::new_from_seconds: UNIX_EPOCH + Duration::from_secs. -/
def ValueType.new_from_seconds (value : List Nat) (seconds : Nat) : ValueType :=
  ⟨value, some (1000 * seconds)⟩

/-- ValueType::new_from_millis: UNIX_EPOCH + Duration::from_millis. -/
def ValueType.new_from_millis (value : List Nat) (millis : Nat) : ValueType :=
  ⟨value, some millis⟩

/-- ValueType::is_expired with the current instant passed explicitly: the
source compares SystemTime::now() > expiration, so a value is expired only
when now is strictly past the deadline. -/
def ValueType.is_expired (v : ValueType) (now : Nat) : Bool :=
  match v.expiration with
  | none => false
  | some e => decide (e < now)

/-- Association-list model of a HashMap, read through lookupKV; the maps of
the source are observed only through get, insert, remove and keys. -/
def lookupKV (k : List Nat) : List (List Nat × α) → Option α
  | [] => none
  | p :: rest => if p.1 = k then some p.2 else lookupKV k rest

/-- HashMap::insert: the new binding replaces any previous binding. -/
def insertKV (k : List Nat) (v : α) (m : List (List Nat × α)) : List (List Nat × α) :=
  (k, v) :: m.filter fun p => decide (p.1 ≠ k)

/-- HashMap::remove. -/
def eraseKV (k : List Nat) (m : List (List Nat × α)) : List (List Nat × α) :=
  m.filter fun p => decide (p.1 ≠ k)

/-- RdbFileError from errors.rs.  The expected-byte description strings are
kept verbatim; io::Error payloads are dropped. -/
inductive RdbFileError where
  | unknownStartingByte : Nat → RdbFileError
  | unexpectedByte : String → Nat → RdbFileError
  | notRedisFile : RdbFileError
  | invalidFile : String → RdbFileError
  | ioError : RdbFileError
  | unimplemented : String → RdbFileError
deriving DecidableEq

/-- RedisError from errors.rs; the String message payloads of the source
are never inspected by a claim and are omitted. -/
inductive RedisError where
  | respParseError : RespError → RedisError
  | ioError : RedisError
  | unknownRequest : RedisError
  | unexpectedNumberOfArgs : RedisError
  | unexpectedArgumentType : RedisError
  | rdbParserError : RdbFileError → RedisError
deriving DecidableEq

mutual
/-- Model of std::str::from_utf8 validity: well-formed UTF-8 per the RFC
3629 table, rejecting overlong encodings, surrogates and values past
U+10FFFF, exactly the byte strings Rust accepts.  The lead byte selects
the range of the first continuation byte and the number of further plain
continuation bytes (each in 128..191). -/
def utf8Valid : List Nat → Bool
  | [] => true
  | b :: rest =>
    if b < 128 then utf8Valid rest
    else if 194 ≤ b ∧ b ≤ 223 then utf8Tail1 128 191 rest
    else if b = 224 then utf8Tail2 160 191 rest
    else if b = 237 then utf8Tail2 128 159 rest
    else if 225 ≤ b ∧ b ≤ 239 then utf8Tail2 128 191 rest
    else if b = 240 then utf8Tail3 144 191 rest
    else if 241 ≤ b ∧ b ≤ 243 then utf8Tail3 128 191 rest
    else if b = 244 then utf8Tail3 128 143 rest
    else false
/-- One continuation byte in the given range, then a fresh character. -/
def utf8Tail1 (lo hi : Nat) : List Nat → Bool
  | c :: rest => (lo ≤ c && c ≤ hi) && utf8Valid rest
  | [] => false
/-- A ranged continuation byte followed by one plain continuation byte. -/
def utf8Tail2 (lo hi : Nat) : List Nat → Bool
  | c :: rest => (lo ≤ c && c ≤ hi) && utf8Tail1 128 191 rest
  | [] => false
/-- A ranged continuation byte followed by two plain continuation bytes. -/
def utf8Tail3 (lo hi : Nat) : List Nat → Bool
  | c :: rest => (lo ≤ c && c ≤ hi) && utf8Tail2 128 191 rest
  | [] => false
end

/-- parse_integer from utils.rs (the free function this snapshot provides;
the import line of resp_command.rs names resp_parser, whose own
parse_integer is a private method of the earlier revision): UTF-8
validation giving StringParseFailure on failure, then i64::from_str_radix
giving IntParseFailure on failure. -/
def parseIntegerU (input : List Nat) : Except RespError Int :=
  if utf8Valid input then
    match i64FromDec input with
    | some v => .ok v
    | none => .error .intParseFailure
  else .error .stringParseFailure

/-- RedisRequest: the command variants.  resp_command.rs of this snapshot
declares Ping, Echo, Set, ConfigGet and Get, while redis_handler.rs of the
same snapshot additionally matches Keys and Info variants (the snapshot
mixes two revisions of the crate), so both are included. -/
inductive RedisRequest where
  | ping : RedisRequest
  | echo : List Nat → RedisRequest
  | set : List Nat → List Nat → Option Nat → RedisRequest
  | configGet : List (List Nat) → RedisRequest
  | get : List Nat → RedisRequest
  | keys : List Nat → RedisRequest
  | info : Option (List Nat) → RedisRequest

/-- uppercase from resp_command.rs: u8::to_ascii_uppercase on every byte. -/
def uppercase (value : List Nat) : List Nat :=
  value.map fun b => if 97 ≤ b ∧ b ≤ 122 then b - 32 else b

/-- parse_expiration from resp_command.rs, with SystemTime::now() passed
explicitly in milliseconds.  Only PX is recognized; the parsed i64 is cast
with (as u64) before being added as a millisecond duration, so a negative
value wraps to a huge unsigned offset instead of failing. -/
def parse_expiration (now : Nat) (expiration_type expiration_value : List Nat) :
    Except RedisError Nat :=
  if uppercase expiration_type = asciiStr ("PX") then
    match parseIntegerU expiration_value with
    | .ok n => .ok (now + i64AsU64 n)
    | .error e => .error (.respParseError e)
  else .error .unknownRequest

/-- parse_ping from resp_command.rs. -/
def parse_ping (values : List RespValue) : Except RedisError RedisRequest :=
  match values with
  | [] => .ok .ping
  | _ => .error .unexpectedNumberOfArgs

/-- parse_echo from resp_command.rs. -/
def parse_echo (values : List RespValue) : Except RedisError RedisRequest :=
  match values with
  | [.bulkString contents] => .ok (.echo contents)
  | [_] => .error .unexpectedArgumentType
  | _ => .error .unexpectedNumberOfArgs

/-- parse_set from resp_command.rs: two trailing BulkStrings give a Set
without expiration, four give a Set whose expiration comes from
parse_expiration, and any other arity is UnexpectedNumberOfArgs. -/
def parse_set (now : Nat) (values : List RespValue) : Except RedisError RedisRequest :=
  match values with
  | [.bulkString key, .bulkString value] => .ok (.set key value none)
  | [_, _] => .error .unexpectedArgumentType
  | [.bulkString key, .bulkString value, .bulkString et, .bulkString ev] =>
    match parse_expiration now et ev with
    | .ok t => .ok (.set key value (some t))
    | .error e => .error e
  | [_, _, _, _] => .error .unexpectedArgumentType
  | _ => .error .unexpectedNumberOfArgs

/-- parse_get from resp_command.rs. -/
def parse_get (values : List RespValue) : Except RedisError RedisRequest :=
  match values with
  | [.bulkString key] => .ok (.get key)
  | [_] => .error .unexpectedArgumentType
  | _ => .error .unexpectedNumberOfArgs

/-- Parameter-collection loop of parse_command_get: every argument must be
a BulkString; the params list keeps the request order. -/
def collectBulk : List RespValue → Option (List (List Nat))
  | [] => some []
  | .bulkString p :: rest => (collectBulk rest).map (p :: ·)
  | _ => none

/-- parse_command_get from resp_command.rs (the CONFIG GET argument list). -/
def parse_command_get (values : List RespValue) : Except RedisError RedisRequest :=
  match collectBulk values with
  | some params => .ok (.configGet params)
  | none => .error .unexpectedArgumentType

/-- parse_config from resp_command.rs: at least a subcommand, which must be
a BulkString spelling GET case-insensitively. -/
def parse_config (values : List RespValue) : Except RedisError RedisRequest :=
  match values with
  | [] => .error .unexpectedNumberOfArgs
  | [_] => .error .unexpectedNumberOfArgs
  | first :: rest =>
    match first with
    | .bulkString subcommand =>
      if uppercase subcommand = asciiStr ("GET") then parse_command_get rest
      else .error .unknownRequest
    | _ => .error .unexpectedArgumentType

/-- parse_command from resp_command.rs: the request must be an Array whose
first element is a BulkString naming the command, matched on its ASCII
uppercase form. -/
def parse_command (now : Nat) (value : RespValue) : Except RedisError RedisRequest :=
  match value with
  | .array [] => .error .unknownRequest
  | .array (first :: args) =>
    match first with
    | .bulkString contents =>
      if uppercase contents = asciiStr ("PING") then parse_ping args
      else if uppercase contents = asciiStr ("ECHO") then parse_echo args
      else if uppercase contents = asciiStr ("SET") then parse_set now args
      else if uppercase contents = asciiStr ("GET") then parse_get args
      else if uppercase contents = asciiStr ("CONFIG") then parse_config args
      else .error .unknownRequest
    | _ => .error .unknownRequest
  | _ => .error .unknownRequest

/-- Modelled from the spec: the KEYS branch of the command parser.  The
resp_command.rs of this snapshot predates the Keys variant (which
redis_handler.rs already matches), so the branch is reconstructed from the
spec sentence: KEYS with exactly one trailing BulkString argument parses to
Keys(pattern); the arity and argument-type errors follow the GET shape. -/
def parse_keys (values : List RespValue) : Except RedisError RedisRequest :=
  match values with
  | [.bulkString pattern] => .ok (.keys pattern)
  | [_] => .error .unexpectedArgumentType
  | _ => .error .unexpectedNumberOfArgs

/-- Modelled from the spec: parse_command extended with the KEYS dispatch
that is missing from the resp_command.rs revision of this snapshot; every
other command falls through to the source-faithful parse_command. -/
def parse_command_spec (now : Nat) (value : RespValue) : Except RedisError RedisRequest :=
  match value with
  | .array (.bulkString contents :: args) =>
    if uppercase contents = asciiStr ("KEYS") then parse_keys args
    else parse_command now value
  | _ => parse_command now value

/-- RedisRole from redis_handler.rs. -/
inductive RedisRole where
  | master : RedisRole
  | slave : RedisRole
deriving DecidableEq

/-- RedisReplicationInfo from redis_handler.rs. -/
structure RedisReplicationInfo where
  role : RedisRole
  connected_slaves : Nat
  master_replid : List Nat
  master_repl_offset : Nat
deriving DecidableEq

/-- RedisHandler from redis_handler.rs: the keyspace, the replication
identity and the config snapshot. -/
structure RedisHandler where
  data : List (List Nat × ValueType)
  config : List (List Nat × List Nat)
  replication_info : RedisReplicationInfo
deriving DecidableEq

/-- RedisReplicationInfo::write_async payload: the replication report. -/
def replicationBytes (ri : RedisReplicationInfo) : List Nat :=
  match ri.role with
  | .master =>
    asciiStr ("role:master\nmaster_replid:") ++ ri.master_replid ++
      asciiStr ("\nmaster_repl_offset:") ++ natToDecBytes ri.master_repl_offset ++
        asciiStr ("\nconnected_slaves:") ++ natToDecBytes ri.connected_slaves
  | .slave => asciiStr ("role:slave")

/-- Value-collection loop of the ConfigGet arm of handle_request: for each
requested parameter present in the config, push the parameter and then its
value, in request order. -/
def configGetValues (config : List (List Nat × List Nat)) : List (List Nat) → List (List Nat)
  | [] => []
  | p :: ps =>
    match lookupKV p config with
    | some v => p :: v :: configGetValues config ps
    | none => configGetValues config ps

/-- RedisHandler::handle_request, with the socket modelled as the RespValue
reply it writes, SystemTime::now() passed explicitly, and the updated
handler returned alongside.  A Keys pattern other than the literal star is
the error the source returns to its caller. -/
def handle_request (now : Nat) (h : RedisHandler) (request : RedisRequest) :
    Except RedisError (RedisHandler × RespValue) :=
  match request with
  | .ping => .ok (h, .simpleString (asciiStr ("PONG")))
  | .echo contents => .ok (h, .bulkString contents)
  | .set key value expiration =>
    .ok ({ h with data := insertKV key ⟨value, expiration⟩ h.data },
      .simpleString (asciiStr ("OK")))
  | .get key =>
    match lookupKV key h.data with
    | some v =>
      if v.is_expired now then .ok ({ h with data := eraseKV key h.data }, .nullBulkString)
      else .ok (h, .bulkString v.value)
    | none => .ok (h, .nullBulkString)
  | .configGet params =>
    if params.isEmpty then .ok (h, .nullArray)
    else .ok (h, .array ((configGetValues h.config params).map RespValue.bulkString))
  | .keys params =>
    if params = [42] then
      .ok (h, .array ((h.data.map fun p => p.1).map RespValue.bulkString))
    else .error .unknownRequest
  | .info none => .ok (h, .bulkString (replicationBytes h.replication_info))
  | .info (some infoType) =>
    if infoType = asciiStr ("replication") then
      .ok (h, .bulkString (replicationBytes h.replication_info))
    else .ok (h, .nullBulkString)

/-- RdbValue from rdb_parser.rs; the Database payload is the decoded
keyspace. -/
inductive RdbValue where
  | header : List Nat → RdbValue
  | metadataSection : List Nat → List Nat → RdbValue
  | database : List (List Nat × ValueType) → RdbValue
  | endOfFile : List Nat → RdbValue

/-- Reader::read_exact into an n-byte buffer, with the reader state being
the list of bytes not yet consumed; a short read is the UnexpectedEof
io::Error wrapped into RdbFileError::IOError. -/
def readExact (n : Nat) (input : List Nat) : Except RdbFileError (List Nat × List Nat) :=
  if n ≤ input.length then .ok (input.take n, input.drop n) else .error .ioError

/-- RdbReader::read_next_byte. -/
def readNextByte : List Nat → Except RdbFileError (Nat × List Nat)
  | [] => .error .ioError
  | b :: rest => .ok (b, rest)

/-- Big-endian value of a byte list (u32::from_be_bytes). -/
def beNat (bs : List Nat) : Nat := bs.foldl (fun acc b => acc * 256 + b) 0

/-- Little-endian value of a byte list (uN::from_le_bytes). -/
def leNat (bs : List Nat) : Nat := bs.foldr (fun b acc => acc * 256 + b) 0

/-- i16::from_le_bytes as a mathematical integer. -/
def i16OfLe (bs : List Nat) : Int :=
  if leNat bs < 2 ^ 15 then (leNat bs : Int) else (leNat bs : Int) - 2 ^ 16

/-- i32::from_le_bytes as a mathematical integer. -/
def i32OfLe (bs : List Nat) : Int :=
  if leNat bs < 2 ^ 31 then (leNat bs : Int) else (leNat bs : Int) - 2 ^ 32

/-- RdbReader::read_size: length dispatch on the top two bits of the lead
byte; the 11 pattern is an error in a pure length context. -/
def readSize (input : List Nat) : Except RdbFileError (Nat × List Nat) := do
  let (b, rest) ← readNextByte input
  if (Nat.land b 192) >>> 6 = 0 then pure (Nat.land b 63, rest)
  else if (Nat.land b 192) >>> 6 = 1 then do
    let (b2, rest2) ← readNextByte rest
    pure ((Nat.land b 63) <<< 8 + b2, rest2)
  else if (Nat.land b 192) >>> 6 = 2 then do
    let (buf, rest2) ← readExact 4 rest
    pure (beNat buf, rest2)
  else .error (.unknownStartingByte b)

/-- RdbReader::read_string: the three plain length encodings followed by
raw bytes, plus the special integer-as-string encodings 0xC0 (one unsigned
byte), 0xC1 (little-endian signed 16-bit) and 0xC2 (little-endian signed
32-bit), each emitted as ASCII decimal; any other lead byte with top bits
11 is UnknownStartingByte. -/
def readString (input : List Nat) : Except RdbFileError (List Nat × List Nat) := do
  let (b, rest) ← readNextByte input
  if (Nat.land b 192) >>> 6 = 0 then readExact (Nat.land b 63) rest
  else if (Nat.land b 192) >>> 6 = 1 then do
    let (b2, rest2) ← readNextByte rest
    readExact ((Nat.land b 63) <<< 8 + b2) rest2
  else if (Nat.land b 192) >>> 6 = 2 then do
    let (buf, rest2) ← readExact 4 rest
    readExact (beNat buf) rest2
  else if (Nat.land b 192) >>> 6 = 3 then
    if b = 192 then do
      let (v, rest2) ← readNextByte rest
      pure (natToDecBytes v, rest2)
    else if b = 193 then do
      let (buf, rest2) ← readExact 2 rest
      pure (intToDecBytes (i16OfLe buf), rest2)
    else if b = 194 then do
      let (buf, rest2) ← readExact 4 rest
      pure (intToDecBytes (i32OfLe buf), rest2)
    else .error (.unknownStartingByte b)
  else .error (.unknownStartingByte b)

/-- RdbReader::read_metadata_entry: two length-prefixed strings. -/
def readMetadataEntry (input : List Nat) : Except RdbFileError (RdbValue × List Nat) := do
  let (key, rest) ← readString input
  let (value, rest2) ← readString rest
  pure (.metadataSection key value, rest2)

/-- Entry-reading loop of RdbReader::read_database: n entries, each with a
type or expiration tag (0x00 none, 0xFC milliseconds, 0xFD seconds). -/
def readEntries : Nat → List (List Nat × ValueType) → List Nat →
    Except RdbFileError (List (List Nat × ValueType) × List Nat)
  | 0, db, input => pure (db, input)
  | n + 1, db, input => do
    let (b, rest) ← readNextByte input
    if b = 0 then do
      let (key, r1) ← readString rest
      let (value, r2) ← readString r1
      readEntries n (insertKV key (ValueType.new value) db) r2
    else if b = 252 then do
      let (buf, r1) ← readExact 8 rest
      let (b2, r2) ← readNextByte r1
      if b2 ≠ 0 then .error (.unexpectedByte ("0x00") b2)
      else do
        let (key, r3) ← readString r2
        let (value, r4) ← readString r3
        readEntries n (insertKV key (ValueType.new_from_millis value (leNat buf)) db) r4
    else if b = 253 then do
      let (buf, r1) ← readExact 4 rest
      let (b2, r2) ← readNextByte r1
      if b2 ≠ 0 then .error (.unexpectedByte ("0x00") b2)
      else do
        let (key, r3) ← readString r2
        let (value, r4) ← readString r3
        readEntries n (insertKV key (ValueType.new_from_seconds value (leNat buf)) db) r4
    else .error (.unexpectedByte ("One of (0xfc, 0xfd, 00)") b)

/-- RdbReader::read_database: database index (must be 0), the 0xFB marker,
the hash-table size, the discarded expire count, then the entries. -/
def readDatabase (input : List Nat) : Except RdbFileError (RdbValue × List Nat) := do
  let (database_idx, r1) ← readSize input
  if database_idx ≠ 0 then .error (.unimplemented ("Multiple databases not supported"))
  else do
    let (b, r2) ← readNextByte r1
    if b ≠ 251 then .error (.unexpectedByte ("0xfb") b)
    else do
      let (n_values, r3) ← readSize r2
      let (_, r4) ← readSize r3
      let (contents, r5) ← readEntries n_values [] r4
      pure (.database contents, r5)

/-- RdbReader::read_end_of_file: eight checksum bytes, not verified. -/
def readEndOfFile (input : List Nat) : Except RdbFileError (RdbValue × List Nat) := do
  let (checksum, rest) ← readExact 8 input
  pure (.endOfFile checksum, rest)

/-- RdbReader::read_next_value: section dispatch on one tag byte (0xFA
metadata, 0xFE database, 0xFF end of file). -/
def readNextValue (input : List Nat) : Except RdbFileError (RdbValue × List Nat) := do
  let (b, rest) ← readNextByte input
  if b = 250 then readMetadataEntry rest
  else if b = 254 then readDatabase rest
  else if b = 255 then readEndOfFile rest
  else .error (.unknownStartingByte b)

/-- RdbReader::read_header: nine bytes, the first five spelling REDIS, the
next four an opaque version. -/
def readHeader (input : List Nat) : Except RdbFileError (RdbValue × List Nat) := do
  let (buffer, rest) ← readExact 9 input
  if buffer.take 5 ≠ [82, 69, 68, 73, 83] then .error .notRedisFile
  else pure (.header (buffer.drop 5), rest)

/-- Section loop of RdbReader::create_handler, fuel-indexed so the
definition is structural; every iteration consumes at least the tag byte,
so fuel beyond the input length never runs out (the exhaustion branch
returns the same IOError a truncated read would).  A Header value would be
rejected as a duplicate header, a MetadataSection is skipped, a Database
replaces the keyspace accumulated so far, and EndOfFile returns it. -/
def createLoopF : Nat → List (List Nat × ValueType) → List Nat →
    Except RdbFileError (List (List Nat × ValueType))
  | 0, _, _ => .error .ioError
  | fuel + 1, db, input =>
    match readNextValue input with
    | .error e => .error e
    | .ok (.header _, _) => .error (.invalidFile ("Multiple file headers"))
    | .ok (.metadataSection _ _, rest) => createLoopF fuel db rest
    | .ok (.database contents, rest) => createLoopF fuel contents rest
    | .ok (.endOfFile _, _) => .ok db

/-- RdbReader::create_handler, projected to the keyspace of the handler it
builds: the header followed by the section loop. -/
def create_handler (input : List Nat) : Except RdbFileError (List (List Nat × ValueType)) :=
  match readHeader input with
  | .error e => .error e
  | .ok (_, rest) => createLoopF (rest.length + 1) [] rest

/-! Helper lemmas about decimal rendering and parsing. -/

theorem natToDecAux_val : ∀ f n acc, n < f →
    (natToDecAux f n).foldl (fun a b => a * 10 + (b - 48)) acc =
      acc * 10 ^ (natToDecAux f n).length + n := by
  intro f
  induction f with
  | zero => intro n acc h; omega
  | succ f ih =>
    intro n acc h
    by_cases hn : n < 10
    · simp [natToDecAux, hn]
    · have hrec : n / 10 < f := by omega
      rw [natToDecAux, if_neg hn, List.foldl_append, List.length_append]
      simp only [List.foldl_cons, List.foldl_nil, List.length_cons, List.length_nil]
      rw [ih (n / 10) acc hrec, pow_succ]
      ring_nf
      omega

theorem digitsVal_natToDecBytes (n : Nat) : digitsVal (natToDecBytes n) = n := by
  have h := natToDecAux_val (n + 1) n 0 (by omega)
  simpa [digitsVal, natToDecBytes] using h

theorem natToDecAux_digits : ∀ f n, n < f → ∀ b ∈ natToDecAux f n, 48 ≤ b ∧ b ≤ 57 := by
  intro f
  induction f with
  | zero => intro n h; omega
  | succ f ih =>
    intro n h b hb
    by_cases hn : n < 10
    · rw [natToDecAux, if_pos hn] at hb
      simp at hb
      omega
    · rw [natToDecAux, if_neg hn] at hb
      rcases List.mem_append.mp hb with h1 | h2
      · exact ih (n / 10) (by omega) b h1
      · simp at h2
        omega

theorem natToDecBytes_digits (n : Nat) : ∀ b ∈ natToDecBytes n, 48 ≤ b ∧ b ≤ 57 :=
  natToDecAux_digits (n + 1) n (by omega)

theorem natToDecAux_ne_nil : ∀ f n, n < f → natToDecAux f n ≠ [] := by
  intro f
  induction f with
  | zero => intro n h; omega
  | succ f _ =>
    intro n h
    by_cases hn : n < 10
    · simp [natToDecAux, hn]
    · simp [natToDecAux, hn]

theorem natToDecBytes_ne_nil (n : Nat) : natToDecBytes n ≠ [] :=
  natToDecAux_ne_nil (n + 1) n (by omega)

theorem all_isDigit_natToDecBytes (n : Nat) : (natToDecBytes n).all isDigit = true := by
  rw [List.all_eq_true]
  intro b hb
  have := natToDecBytes_digits n b hb
  simp [isDigit]
  omega

/-- Round trip of the decimal rendering through the i64 parser, for values
in i64 range. -/
theorem i64FromDec_intToDecBytes (i : Int) (h1 : -(2 ^ 63) ≤ i) (h2 : i ≤ 2 ^ 63 - 1) :
    i64FromDec (intToDecBytes i) = some i := by
  by_cases hneg : i < 0
  · have habs : ((i.natAbs : Int)) = -i := by omega
    rw [intToDecBytes, if_pos hneg]
    simp only [i64FromDec]
    norm_num
    refine ⟨natToDecBytes_ne_nil i.natAbs, ?_, ?_, ?_⟩
    · intro x hx
      have hd := natToDecBytes_digits i.natAbs x hx
      simp only [isDigit, Bool.and_eq_true, decide_eq_true_eq]
      omega
    · rw [digitsVal_natToDecBytes]
      constructor <;> omega
    · rw [digitsVal_natToDecBytes, habs, neg_neg]
  · have hnn : (0 : Int) ≤ i := by omega
    have hto : ((i.toNat : Int)) = i := by omega
    rw [intToDecBytes, if_neg hneg]
    rcases hD : natToDecBytes i.toNat with _ | ⟨b, rest⟩
    · exact absurd hD (natToDecBytes_ne_nil i.toNat)
    have hb : 48 ≤ b ∧ b ≤ 57 := by
      apply natToDecBytes_digits i.toNat
      rw [hD]
      simp
    have hsign : ¬(b = 43 ∨ b = 45) := by omega
    have hall : (b :: rest).all isDigit = true := by
      rw [← hD]
      exact all_isDigit_natToDecBytes i.toNat
    have hval : digitsVal (b :: rest) = i.toNat := by
      rw [← hD]
      exact digitsVal_natToDecBytes i.toNat
    simp only [i64FromDec]
    simp only [if_neg hsign, hall, hval, if_true]
    norm_num [show ¬ b = 45 by omega]
    exact ⟨by simp, by omega, by omega⟩

/-! Helper lemmas about the CRLF finder and next_word. -/

theorem findSep_none_of_no13 : ∀ w : List Nat, (∀ b ∈ w, b ≠ 13) → findSep w = none := by
  intro w
  induction w with
  | nil => intro _; rfl
  | cons a t ih =>
    intro h
    cases t with
    | nil => rfl
    | cons b t2 =>
      have ha : a ≠ 13 := h a (by simp)
      rw [findSep, if_neg (by simp [ha])]
      rw [ih fun x hx => h x (List.mem_cons_of_mem a hx)]
      rfl

theorem findSep_append : ∀ (w rest : List Nat), findSep w = none →
    findSep (w ++ 13 :: 10 :: rest) = some w.length := by
  intro w
  induction w with
  | nil => intro rest _; simp [findSep]
  | cons a t ih =>
    intro rest h
    cases t with
    | nil =>
      rw [List.cons_append, List.nil_append, findSep, if_neg (by omega)]
      rw [show findSep (13 :: 10 :: rest) = some 0 by rw [findSep, if_pos ⟨rfl, rfl⟩]]
      rfl
    | cons b t2 =>
      by_cases hc : a = 13 ∧ b = 10
      · rw [findSep, if_pos hc] at h
        exact absurd h (by simp)
      · rw [findSep, if_neg hc] at h
        have h2 : findSep (b :: t2) = none := by
          cases hm : findSep (b :: t2) with
          | none => rfl
          | some k => rw [hm] at h; simp at h
        rw [List.cons_append, List.cons_append, findSep, if_neg hc]
        rw [show (b :: (t2 ++ 13 :: 10 :: rest)) = (b :: t2) ++ 13 :: 10 :: rest from rfl]
        rw [ih rest h2]
        simp

theorem nextWord_append (w rest : List Nat) (h : findSep w = none) :
    nextWord (w ++ 13 :: 10 :: rest) = .ok (w, rest) := by
  rw [nextWord, findSep_append w rest h]
  dsimp only
  rw [List.take_left]
  have hd : (w ++ 13 :: 10 :: rest).drop (w.length + 2) = (13 :: 10 :: rest).drop 2 := by
    simp [List.drop_append]
  rw [hd]
  rfl

/-- Words made of a non-CR lead byte and digit or sign bytes contain no CR
byte, hence no CRLF. -/
theorem findSep_none_cons_digits (c : Nat) (hc : c ≠ 13) (d : List Nat)
    (hd : ∀ b ∈ d, 48 ≤ b ∧ b ≤ 57) : findSep (c :: d) = none := by
  apply findSep_none_of_no13
  intro b hb
  rcases List.mem_cons.mp hb with h1 | h2
  · omega
  · have := hd b h2
    omega

theorem intToDecBytes_bytes (i : Int) : ∀ b ∈ intToDecBytes i, 45 ≤ b ∧ b ≤ 57 := by
  intro b hb
  rw [intToDecBytes] at hb
  by_cases hneg : i < 0
  · rw [if_pos hneg] at hb
    rcases List.mem_cons.mp hb with h1 | h2
    · omega
    · have := natToDecBytes_digits i.natAbs b h2
      omega
  · rw [if_neg hneg] at hb
    have := natToDecBytes_digits i.toNat b hb
    omega

theorem i64FromDec_natToDecBytes (n : Nat) (h : n < 2 ^ 63) :
    i64FromDec (natToDecBytes n) = some (n : Int) := by
  have h2 := i64FromDec_intToDecBytes (n : Int) (by omega) (by omega)
  rw [intToDecBytes, if_neg (by omega)] at h2
  simpa using h2

/-! Core round-trip development for the RESP codec. -/

/-- Round trip at any fuel beyond the encoded length: parsing the encoding
of a representable value followed by any suffix yields the value and the
suffix. -/
theorem nextValueF_write : ∀ fuel (v : RespValue), reprV v = true →
    ∀ rest : List Nat, (RespValue.write v).length < fuel →
    nextValueF fuel (RespValue.write v ++ rest) = .ok (v, rest) := by
  intro fuel
  induction fuel with
  | zero => intro v _ rest h; omega
  | succ f ih =>
    intro v hrepr rest hlen
    cases v with
    | simpleString s =>
      simp only [reprV, List.all_eq_true, decide_eq_true_eq] at hrepr
      have hfind : findSep (43 :: s) = none := by
        apply findSep_none_of_no13
        intro b hb
        rcases List.mem_cons.mp hb with h1 | h2
        · omega
        · exact (hrepr b h2).1
      have hshape : RespValue.write (.simpleString s) ++ rest = (43 :: s) ++ 13 :: 10 :: rest := by
        simp [RespValue.write]
      rw [hshape]
      simp only [nextValueF]
      rw [nextWord_append _ _ hfind]
      simp
    | simpleError s =>
      simp only [reprV, List.all_eq_true, decide_eq_true_eq] at hrepr
      have hfind : findSep (45 :: s) = none := by
        apply findSep_none_of_no13
        intro b hb
        rcases List.mem_cons.mp hb with h1 | h2
        · omega
        · exact (hrepr b h2).1
      have hshape : RespValue.write (.simpleError s) ++ rest = (45 :: s) ++ 13 :: 10 :: rest := by
        simp [RespValue.write]
      rw [hshape]
      simp only [nextValueF]
      rw [nextWord_append _ _ hfind]
      simp
    | simpleInteger i =>
      simp only [reprV, decide_eq_true_eq] at hrepr
      have hfind : findSep (58 :: intToDecBytes i) = none := by
        apply findSep_none_of_no13
        intro b hb
        rcases List.mem_cons.mp hb with h1 | h2
        · omega
        · have := intToDecBytes_bytes i b h2
          omega
      have hshape : RespValue.write (.simpleInteger i) ++ rest =
          (58 :: intToDecBytes i) ++ 13 :: 10 :: rest := by
        simp [RespValue.write]
      rw [hshape]
      simp only [nextValueF]
      rw [nextWord_append _ _ hfind]
      simp [parseInteger, i64FromDec_intToDecBytes i hrepr.1 hrepr.2]
    | bulkString s =>
      simp only [reprV, Bool.and_eq_true, decide_eq_true_eq] at hrepr
      have hfind : findSep (36 :: natToDecBytes s.length) = none :=
        findSep_none_cons_digits 36 (by omega) _ (natToDecBytes_digits _)
      have hshape : RespValue.write (.bulkString s) ++ rest =
          (36 :: natToDecBytes s.length) ++ 13 :: 10 :: (s ++ 13 :: 10 :: rest) := by
        simp [RespValue.write]
      rw [hshape]
      simp only [nextValueF]
      rw [nextWord_append _ _ hfind]
      have hparse : parseInteger (natToDecBytes s.length) = .ok (s.length : Int) := by
        rw [parseInteger, i64FromDec_natToDecBytes s.length hrepr.1]
      have hlen2 : (s ++ 13 :: 10 :: rest).length = s.length + 2 + rest.length := by
        simp
        omega
      have hwrap : usizeWrapSub (s ++ 13 :: 10 :: rest).length 2 = s.length + rest.length := by
        rw [usizeWrapSub, if_pos (by omega)]
        omega
      have hdrop : (s ++ 13 :: 10 :: rest).drop s.length = 13 :: 10 :: rest :=
        List.drop_left s _
      have hdrop2 : (s ++ 13 :: 10 :: rest).drop (s.length + 2) = rest := by
        have : (s ++ 13 :: 10 :: rest).drop (s.length + 2) = (13 :: 10 :: rest).drop 2 := by
          simp [List.drop_append]
        rw [this]
        rfl
      norm_num
      simp only [parseBulkString, hparse]
      rw [if_neg (by omega), if_neg (by omega)]
      simp only [Int.toNat_natCast]
      rw [if_neg (by rw [hwrap]; omega)]
      rw [if_neg (by rw [hlen2]; omega)]
      rw [if_neg (by rw [hdrop]; simp)]
      rw [hdrop2, List.take_left]
    | nullBulkString =>
      have hshape : RespValue.write .nullBulkString ++ rest = [36, 45, 49] ++ 13 :: 10 :: rest := by
        simp [RespValue.write]
      rw [hshape]
      simp only [nextValueF]
      rw [nextWord_append _ _ (by rfl)]
      simp [parseBulkString, parseInteger, show i64FromDec [45, 49] = some (-1) from rfl]
    | nullArray =>
      have hshape : RespValue.write .nullArray ++ rest = [42, 45, 49] ++ 13 :: 10 :: rest := by
        simp [RespValue.write]
      rw [hshape]
      simp only [nextValueF]
      rw [nextWord_append _ _ (by rfl)]
      simp [parseInteger, show i64FromDec [45, 49] = some (-1) from rfl]
    | array vs =>
      simp only [reprV, Bool.and_eq_true, decide_eq_true_eq] at hrepr
      have hfind : findSep (42 :: natToDecBytes vs.length) = none :=
        findSep_none_cons_digits 42 (by omega) _ (natToDecBytes_digits _)
      have hshape : RespValue.write (.array vs) ++ rest =
          (42 :: natToDecBytes vs.length) ++ 13 :: 10 :: (writeList vs ++ rest) := by
        simp [RespValue.write]
      have hdlen : 1 ≤ (natToDecBytes vs.length).length := by
        have := natToDecBytes_ne_nil vs.length
        cases hD : natToDecBytes vs.length with
        | nil => exact absurd hD this
        | cons a t => simp
      have hwlen : (RespValue.write (.array vs)).length =
          1 + (natToDecBytes vs.length).length + 2 + (writeList vs).length := by
        simp [RespValue.write]
        omega
      have hltf : (writeList vs).length < f := by omega
      have hloop : ∀ ws : List RespValue, reprList ws = true → (writeList ws).length < f →
          ∀ (acc : List RespValue) (rrest : List Nat),
          iterN (loopStep (nextValueF f)) ws.length (.ok (acc, writeList ws ++ rrest)) =
            .ok (acc ++ ws, rrest) := by
        intro ws
        induction ws with
        | nil =>
          intro _ _ acc rrest
          simp [iterN, writeList]
        | cons w ws2 ihw =>
          intro hr hl acc rrest
          have hrw : reprV w = true ∧ reprList ws2 = true := by
            simpa [reprList, Bool.and_eq_true] using hr
          have hsum : (writeList (w :: ws2)).length =
              (RespValue.write w).length + (writeList ws2).length := by
            simp [writeList]
          have hlw : (RespValue.write w).length < f := by omega
          have hlw2 : (writeList ws2).length < f := by omega
          rw [show writeList (w :: ws2) = RespValue.write w ++ writeList ws2 from rfl,
            List.length_cons, List.append_assoc]
          rw [show iterN (loopStep (nextValueF f)) (ws2.length + 1)
              (.ok (acc, RespValue.write w ++ (writeList ws2 ++ rrest))) =
            iterN (loopStep (nextValueF f)) ws2.length
              (loopStep (nextValueF f)
                (.ok (acc, RespValue.write w ++ (writeList ws2 ++ rrest)))) from rfl]
          have hstep : loopStep (nextValueF f)
              (.ok (acc, RespValue.write w ++ (writeList ws2 ++ rrest))) =
              .ok (acc ++ [w], writeList ws2 ++ rrest) := by
            simp only [loopStep, ih w hrw.1 (writeList ws2 ++ rrest) hlw]
          rw [hstep, ihw hrw.2 hlw2 (acc ++ [w]) rrest]
          simp
      rw [hshape]
      simp only [nextValueF]
      rw [nextWord_append _ _ hfind]
      have hparse : parseInteger (natToDecBytes vs.length) = .ok (vs.length : Int) := by
        rw [parseInteger, i64FromDec_natToDecBytes vs.length hrepr.1]
      norm_num
      simp only [hparse]
      rw [if_neg (by omega), if_neg (by omega)]
      simp only [Int.toNat_natCast]
      rw [hloop vs hrepr.2 hltf [] rest]
      simp

/-- C1: for every representable RespValue (simple strings and errors free
of CR and LF, i64 integers, bulk strings of arbitrary bytes, the null
sentinels and arbitrarily nested arrays), parsing the bytes produced by
RespValue::write returns a value equal to the original with an empty
remainder; moreover NullBulkString and the empty BulkString, and NullArray
and the empty Array, encode to different byte strings, so the distinct
originals round-trip distinctly. -/
theorem c1_write_roundtrip (v : RespValue) (h : reprV v = true) :
    nextValue (RespValue.write v) = .ok (v, []) ∧
    RespValue.write .nullBulkString ≠ RespValue.write (.bulkString []) ∧
    RespValue.write .nullArray ≠ RespValue.write (.array []) := by
  refine ⟨?_, by decide, by decide⟩
  have hrt := nextValueF_write ((RespValue.write v).length + 1) v h [] (by omega)
  rw [List.append_nil] at hrt
  rw [nextValue]
  exact hrt

/-- Witness: the C1 round trip evaluated at a concrete nested value whose
bulk string contains CR, LF and NUL bytes. -/
theorem c1_write_roundtrip_witness :
    nextValue (RespValue.write (.array [.bulkString [13, 10, 0], .simpleString [79, 75],
      .simpleInteger (-42), .nullBulkString, .array [.nullArray]])) =
      .ok (.array [.bulkString [13, 10, 0], .simpleString [79, 75],
        .simpleInteger (-42), .nullBulkString, .array [.nullArray]], []) ∧
    RespValue.write .nullBulkString ≠ RespValue.write (.bulkString []) ∧
    RespValue.write .nullArray ≠ RespValue.write (.array []) :=
  c1_write_roundtrip _ (by decide)

/-- C2 (code bug): on a bulk-string header declaring n bytes but followed
by fewer than two bytes, RespParser::parse_bulk_string panics instead of
returning UnexpectedEnd: remainder.len() - 2 underflows in usize
arithmetic, so the length guard passes and the slice
remainder[size..size + 2] is out of bounds.  The two inputs are the
header dollar-0-CRLF with nothing after it, and dollar-1-CRLF followed by
a single payload byte. -/
theorem c2_short_bulk_header_panics :
    nextValue [36, 48, 13, 10] = .crash ∧ nextValue [36, 49, 13, 10, 65] = .crash := by
  constructor <;> rfl

/-! Helper lemmas about the association-list model of the HashMaps. -/

theorem lookupKV_insertKV_self (k : List Nat) (v : α) (m : List (List Nat × α)) :
    lookupKV k (insertKV k v m) = some v := by
  simp [insertKV, lookupKV]

theorem lookupKV_filter_ne (k k2 : List Nat) (hne : k2 ≠ k) :
    ∀ m : List (List Nat × α),
      lookupKV k2 (m.filter fun p => decide (p.1 ≠ k)) = lookupKV k2 m := by
  intro m
  induction m with
  | nil => rfl
  | cons p t ih =>
    by_cases hp : p.1 = k
    · rw [show List.filter (fun p => decide (p.1 ≠ k)) (p :: t) =
          List.filter (fun p => decide (p.1 ≠ k)) t by simp [List.filter, hp]]
      rw [ih, lookupKV, if_neg (by rw [hp]; exact fun hx => hne hx.symm)]
    · rw [show List.filter (fun p => decide (p.1 ≠ k)) (p :: t) =
          p :: List.filter (fun p => decide (p.1 ≠ k)) t by simp [List.filter, hp]]
      rw [lookupKV, lookupKV]
      by_cases hpk : p.1 = k2
      · rw [if_pos hpk, if_pos hpk]
      · rw [if_neg hpk, if_neg hpk, ih]

theorem lookupKV_insertKV_other (k k2 : List Nat) (hne : k2 ≠ k) (v : α)
    (m : List (List Nat × α)) : lookupKV k2 (insertKV k v m) = lookupKV k2 m := by
  rw [insertKV, lookupKV, if_neg (fun hx => hne hx.symm)]
  exact lookupKV_filter_ne k k2 hne m

theorem lookupKV_eraseKV_self (k : List Nat) (m : List (List Nat × α)) :
    lookupKV k (eraseKV k m) = none := by
  induction m with
  | nil => rfl
  | cons p t ih =>
    by_cases hp : p.1 = k
    · rw [show eraseKV k (p :: t) = eraseKV k t by simp [eraseKV, List.filter, hp]]
      exact ih
    · rw [show eraseKV k (p :: t) = p :: eraseKV k t by simp [eraseKV, List.filter, hp]]
      rw [lookupKV, if_neg hp]
      exact ih

/-- C9: evaluating Set maps the key to the new value and expiration,
leaves every other key, the config and the replication info unchanged, and
replies OK, regardless of previous presence or expiration of the key. -/
theorem c9_set_frame (now : Nat) (h : RedisHandler) (key value : List Nat)
    (expiration : Option Nat) (h2 : RedisHandler) (reply : RespValue)
    (heval : handle_request now h (.set key value expiration) = .ok (h2, reply)) :
    lookupKV key h2.data = some ⟨value, expiration⟩ ∧
    (∀ k2, k2 ≠ key → lookupKV k2 h2.data = lookupKV k2 h.data) ∧
    h2.config = h.config ∧ h2.replication_info = h.replication_info ∧
    reply = .simpleString (asciiStr ("OK")) := by
  rw [handle_request] at heval
  rw [Except.ok.injEq, Prod.mk.injEq] at heval
  obtain ⟨hh, hr⟩ := heval
  subst hh
  refine ⟨lookupKV_insertKV_self key _ h.data, ?_, rfl, rfl, hr.symm⟩
  intro k2 hk2
  exact lookupKV_insertKV_other key k2 hk2 _ h.data

/-- Witness: the C9 frame conditions at a concrete handler holding one
other binding. -/
theorem c9_set_frame_witness :
    lookupKV [107] (insertKV [107] (ValueType.mk [118] (some 9))
        [([5], ValueType.mk [6] none)]) = some (ValueType.mk [118] (some 9)) ∧
      (∀ k2, k2 ≠ [107] →
        lookupKV k2 (insertKV [107] (ValueType.mk [118] (some 9))
            [([5], ValueType.mk [6] none)]) =
          lookupKV k2 [([5], ValueType.mk [6] none)]) ∧
      ([([1], [2])] : List (List Nat × List Nat)) = [([1], [2])] ∧
      (⟨.master, 0, [], 0⟩ : RedisReplicationInfo) = ⟨.master, 0, [], 0⟩ ∧
      RespValue.simpleString (asciiStr ("OK")) = .simpleString (asciiStr ("OK")) :=
  c9_set_frame 0 ⟨[([5], ⟨[6], none⟩)], [([1], [2])], ⟨.master, 0, [], 0⟩⟩ [107] [118] (some 9)
    ⟨insertKV [107] ⟨[118], some 9⟩ [([5], ⟨[6], none⟩)], [([1], [2])], ⟨.master, 0, [], 0⟩⟩
    (.simpleString (asciiStr ("OK"))) rfl

/-- C3 (counterexample): a key whose deadline equals the current instant is
not treated as expired.  With now = 100 and a stored deadline of 100, Get
replies BulkString of the stored value and leaves the entry in place,
against the claim that a deadline at or before now is removed and reported
as NullBulkString (ValueType::is_expired uses the strict comparison
SystemTime::now() > expiration). -/
theorem c3_get_at_deadline_counterexample :
    handle_request 100
        (RedisHandler.mk [([107], ValueType.mk [118] (some 100))] []
          (RedisReplicationInfo.mk .master 0 [] 0)) (.get [107]) =
      .ok (RedisHandler.mk [([107], ValueType.mk [118] (some 100))] []
          (RedisReplicationInfo.mk .master 0 [] 0), .bulkString [118]) ∧
      RespValue.bulkString [118] ≠ RespValue.nullBulkString := by
  refine ⟨rfl, ?_⟩
  intro hx
  cases hx

/-- C3 (amended): Get removes the entry and replies NullBulkString exactly
when the stored deadline is strictly before the current instant; an entry
whose deadline is at or after now (or which has no deadline) is returned
as BulkString and left in place, and a missing key replies
NullBulkString. -/
theorem c3_get_lazy_expiration (now : Nat) (h : RedisHandler) (key : List Nat) :
    (∀ v t, lookupKV key h.data = some v → v.expiration = some t → t < now →
      handle_request now h (.get key) =
        .ok ({ h with data := eraseKV key h.data }, .nullBulkString)) ∧
    (∀ v, lookupKV key h.data = some v → (∀ t, v.expiration = some t → now ≤ t) →
      handle_request now h (.get key) = .ok (h, .bulkString v.value)) ∧
    (lookupKV key h.data = none →
      handle_request now h (.get key) = .ok (h, .nullBulkString)) := by
  refine ⟨?_, ?_, ?_⟩
  · intro v t hl he ht
    rw [handle_request, hl]
    dsimp only
    rw [if_pos (by simp [ValueType.is_expired, he]; omega)]
  · intro v hl hne
    rw [handle_request, hl]
    dsimp only
    rw [if_neg ?_]
    cases hv : v.expiration with
    | none => simp [ValueType.is_expired, hv]
    | some t =>
      have := hne t hv
      simp [ValueType.is_expired, hv]
      omega
  · intro hl
    rw [handle_request, hl]

/-- Witness: the C3 amended behaviour at a concrete handler, in both the
strictly-expired and the not-yet-expired direction. -/
theorem c3_get_lazy_expiration_witness :
    handle_request 101
        (RedisHandler.mk [([107], ValueType.mk [118] (some 100))] []
          (RedisReplicationInfo.mk .master 0 [] 0)) (.get [107]) =
      .ok (RedisHandler.mk (eraseKV [107] [([107], ValueType.mk [118] (some 100))]) []
          (RedisReplicationInfo.mk .master 0 [] 0), .nullBulkString) ∧
    handle_request 99
        (RedisHandler.mk [([107], ValueType.mk [118] (some 100))] []
          (RedisReplicationInfo.mk .master 0 [] 0)) (.get [107]) =
      .ok (RedisHandler.mk [([107], ValueType.mk [118] (some 100))] []
          (RedisReplicationInfo.mk .master 0 [] 0), .bulkString [118]) :=
  ⟨(c3_get_lazy_expiration 101
      (RedisHandler.mk [([107], ValueType.mk [118] (some 100))] []
        (RedisReplicationInfo.mk .master 0 [] 0)) [107]).1
      (ValueType.mk [118] (some 100)) 100 rfl rfl (by omega),
    (c3_get_lazy_expiration 99
      (RedisHandler.mk [([107], ValueType.mk [118] (some 100))] []
        (RedisReplicationInfo.mk .master 0 [] 0)) [107]).2.1
      (ValueType.mk [118] (some 100)) rfl
      (fun t ht => by rw [Option.some.injEq] at ht; omega)⟩

/-- Rendering of the ConfigGet value loop as a per-parameter flat map. -/
theorem configGetValues_bind (cfg : List (List Nat × List Nat)) :
    ∀ params : List (List Nat),
      (configGetValues cfg params).map RespValue.bulkString =
        params.flatMap fun p =>
          match lookupKV p cfg with
          | some v => [RespValue.bulkString p, RespValue.bulkString v]
          | none => [] := by
  intro params
  induction params with
  | nil => rfl
  | cons p ps ih =>
    rw [configGetValues]
    cases hp : lookupKV p cfg with
    | some v => simp only [List.flatMap_cons, hp, List.map_cons, ih]; rfl
    | none => simp only [List.flatMap_cons, hp, ih]; rfl

/-- C8: ConfigGet with an empty parameter list replies NullArray; with a
non-empty list it replies an Array of alternating BulkString(param),
BulkString(value) pairs for exactly the requested parameters present in
the config, in request order, with absent parameters contributing
nothing; the handler state is unchanged. -/
theorem c8_config_get (now : Nat) (h : RedisHandler) (params : List (List Nat)) :
    handle_request now h (.configGet []) = .ok (h, .nullArray) ∧
    (params ≠ [] → handle_request now h (.configGet params) =
      .ok (h, .array (params.flatMap fun p =>
        match lookupKV p h.config with
        | some v => [RespValue.bulkString p, RespValue.bulkString v]
        | none => []))) := by
  constructor
  · rfl
  · intro hne
    rw [handle_request, if_neg (by simpa [List.isEmpty_iff] using hne)]
    rw [configGetValues_bind h.config params]

/-- Witness: C8 at a concrete config holding dir and port, requested as
[port, missing, dir]. -/
theorem c8_config_get_witness :
    handle_request 0
        (RedisHandler.mk [] [([100], [47]), ([112], [54])]
          (RedisReplicationInfo.mk .master 0 [] 0)) (.configGet []) =
      .ok (RedisHandler.mk [] [([100], [47]), ([112], [54])]
        (RedisReplicationInfo.mk .master 0 [] 0), .nullArray) ∧
    ([[112], [9], [100]] ≠ ([] : List (List Nat)) →
      handle_request 0
          (RedisHandler.mk [] [([100], [47]), ([112], [54])]
            (RedisReplicationInfo.mk .master 0 [] 0)) (.configGet [[112], [9], [100]]) =
        .ok (RedisHandler.mk [] [([100], [47]), ([112], [54])]
          (RedisReplicationInfo.mk .master 0 [] 0),
          .array ([[112], [9], [100]].flatMap fun p =>
            match lookupKV p [([100], [47]), ([112], [54])] with
            | some v => [RespValue.bulkString p, RespValue.bulkString v]
            | none => []))) :=
  c8_config_get 0
    (RedisHandler.mk [] [([100], [47]), ([112], [54])]
      (RedisReplicationInfo.mk .master 0 [] 0)) [[112], [9], [100]]

/-! Helper lemmas for the SET PX expiration claim. -/

theorem utf8Valid_of_ascii : ∀ l : List Nat, (∀ b ∈ l, b < 128) → utf8Valid l = true := by
  intro l
  induction l with
  | nil => intro _; rfl
  | cons b t ih =>
    intro hl
    have hb : b < 128 := hl b (by simp)
    rw [utf8Valid, if_pos hb]
    exact ih fun x hx => hl x (List.mem_cons_of_mem b hx)

theorem i64FromDec_some_ascii (bs : List Nat) (n : Int) (h : i64FromDec bs = some n) :
    ∀ b ∈ bs, b < 128 := by
  cases bs with
  | nil => exact Option.noConfusion h
  | cons c rest =>
    simp only [i64FromDec] at h
    by_cases hsig : c = 43 ∨ c = 45
    · rw [if_pos hsig] at h
      by_cases hdig : rest.all isDigit = true
      · intro b hb
        rcases List.mem_cons.mp hb with h1 | h2
        · omega
        · have := List.all_eq_true.mp hdig b h2
          simp [isDigit] at this
          omega
      · by_cases hnil : rest = ([] : List Nat)
        · rw [if_pos hnil] at h
          exact absurd h (by simp)
        · rw [if_neg hnil, if_neg hdig] at h
          exact absurd h (by simp)
    · rw [if_neg hsig] at h
      by_cases hdig : (c :: rest).all isDigit = true
      · intro b hb
        have := List.all_eq_true.mp hdig b hb
        simp [isDigit] at this
        omega
      · rw [if_neg (by simp), if_neg hdig] at h
        exact absurd h (by simp)

/-- C4 (counterexample): with PX and the fourth argument the string minus
one, SET parsing succeeds instead of rejecting a negative duration: the
parsed i64 is cast with (as u64), so -1 wraps to 18446744073709551615 and
the expiration becomes now + 2^64 - 1 milliseconds (now = 0 here; bytes
112 120 spell px and 45 49 spell minus one). -/
theorem c4_set_px_negative_counterexample :
    parse_set 0 [.bulkString [107], .bulkString [118], .bulkString [112, 120],
        .bulkString [45, 49]] =
      .ok (.set [107] [118] (some 18446744073709551615)) := by
  rfl

/-- C4 (amended): for a SET with four trailing BulkStrings whose third
argument uppercases to PX, parsing succeeds exactly when the fourth
argument is an optionally signed decimal integer N in i64 range, with
expiration now + (N as u64) milliseconds, where the cast wraps negative
values; a well-formed-UTF-8 fourth argument that is not such an integer
yields IntParseFailure, and a non-UTF-8 one yields StringParseFailure. -/
theorem c4_set_px_expiration (now : Nat) (k v et ev : List Nat)
    (hpx : uppercase et = asciiStr ("PX")) :
    (∀ n : Int, i64FromDec ev = some n →
      parse_set now [.bulkString k, .bulkString v, .bulkString et, .bulkString ev] =
        .ok (.set k v (some (now + i64AsU64 n)))) ∧
    (i64FromDec ev = none → utf8Valid ev = true →
      parse_set now [.bulkString k, .bulkString v, .bulkString et, .bulkString ev] =
        .error (.respParseError .intParseFailure)) ∧
    (utf8Valid ev = false →
      parse_set now [.bulkString k, .bulkString v, .bulkString et, .bulkString ev] =
        .error (.respParseError .stringParseFailure)) := by
  refine ⟨?_, ?_, ?_⟩
  · intro n hn
    have hv : utf8Valid ev = true :=
      utf8Valid_of_ascii ev (i64FromDec_some_ascii ev n hn)
    rw [parse_set]
    rw [parse_expiration, if_pos hpx, parseIntegerU, if_pos hv, hn]
  · intro hn hv
    rw [parse_set]
    rw [parse_expiration, if_pos hpx, parseIntegerU, if_pos hv, hn]
  · intro hv
    rw [parse_set]
    rw [parse_expiration, if_pos hpx, parseIntegerU, if_neg (by simp [hv])]

/-- Witness: the C4 amended behaviour at a concrete SET, in the negative
integer, non-integer and non-UTF-8 directions (bytes 112 120 spell px). -/
theorem c4_set_px_expiration_witness :
    parse_set 7 [.bulkString [107], .bulkString [118], .bulkString [112, 120],
        .bulkString [45, 50]] = .ok (.set [107] [118] (some (7 + 18446744073709551614))) ∧
    parse_set 7 [.bulkString [107], .bulkString [118], .bulkString [112, 120],
        .bulkString [97, 98]] = .error (.respParseError .intParseFailure) ∧
    parse_set 7 [.bulkString [107], .bulkString [118], .bulkString [112, 120],
        .bulkString [255]] = .error (.respParseError .stringParseFailure) :=
  ⟨(c4_set_px_expiration 7 [107] [118] [112, 120] [45, 50] rfl).1 (-2) rfl,
    (c4_set_px_expiration 7 [107] [118] [112, 120] [97, 98] rfl).2.1 rfl rfl,
    (c4_set_px_expiration 7 [107] [118] [112, 120] [255] rfl).2.2 rfl⟩

/-- C5 (spec-modelled): a RESP Array whose first element is a BulkString
spelling KEYS case-insensitively, followed by exactly one trailing
BulkString, parses to the Keys request rather than an error. -/
theorem c5_keys_parse (now : Nat) (name pattern : List Nat)
    (hname : uppercase name = asciiStr ("KEYS")) :
    parse_command_spec now (.array [.bulkString name, .bulkString pattern]) =
      .ok (.keys pattern) := by
  rw [parse_command_spec]
  rw [if_pos hname]
  rfl

/-- Witness: C5 with the lowercase spelling keys (bytes 107 101 121 115)
and the star pattern. -/
theorem c5_keys_parse_witness :
    parse_command_spec 0 (.array [.bulkString [107, 101, 121, 115], .bulkString [42]]) =
      .ok (.keys [42]) :=
  c5_keys_parse 0 [107, 101, 121, 115] [42] rfl

/-! Helper lemmas about the Except monad and how many bytes each RDB
reader consumes. -/

theorem exceptBind_ok {E α β : Type} {x : Except E α} {f : α → Except E β} {y : β}
    (h : (x >>= f) = .ok y) : ∃ a, x = .ok a ∧ f a = .ok y := by
  cases x with
  | error e => exact absurd h (by simp [Bind.bind, Except.bind])
  | ok a => exact ⟨a, rfl, by simpa [Bind.bind, Except.bind] using h⟩

theorem exceptOk_bind {E α β : Type} (x : α) (f : α → Except E β) :
    ((Except.ok x : Except E α) >>= f) = f x := rfl

theorem exceptPure_ok2 {E α β : Type} {a c : α} {b d : β}
    (h : (pure (a, b) : Except E (α × β)) = .ok (c, d)) : a = c ∧ b = d := by
  rw [show (pure (a, b) : Except E (α × β)) = .ok (a, b) from rfl, Except.ok.injEq,
    Prod.mk.injEq] at h
  exact h

theorem readExact_length (n : Nat) (input bs rest : List Nat)
    (h : readExact n input = .ok (bs, rest)) : rest.length ≤ input.length := by
  rw [readExact] at h
  by_cases hn : n ≤ input.length
  · rw [if_pos hn, Except.ok.injEq, Prod.mk.injEq] at h
    rcases h with ⟨-, rfl⟩
    simp
  · rw [if_neg hn] at h
    exact absurd h (by simp)

theorem readNextByte_length (input : List Nat) (b : Nat) (rest : List Nat)
    (h : readNextByte input = .ok (b, rest)) : rest.length + 1 = input.length := by
  cases input with
  | nil => exact absurd h (by simp [readNextByte])
  | cons c t =>
    rw [readNextByte, Except.ok.injEq, Prod.mk.injEq] at h
    rcases h with ⟨-, rfl⟩
    simp

theorem readSize_length (input : List Nat) (n : Nat) (rest : List Nat)
    (h : readSize input = .ok (n, rest)) : rest.length ≤ input.length := by
  rw [readSize] at h
  obtain ⟨⟨b, r1⟩, hb, h⟩ := exceptBind_ok h
  dsimp only at h
  have hl1 := readNextByte_length input b r1 hb
  split_ifs at h
  · obtain ⟨-, rfl⟩ := exceptPure_ok2 h
    omega
  · obtain ⟨⟨b2, r2⟩, hb2, h⟩ := exceptBind_ok h
    try dsimp only at h
    have hl2 := readNextByte_length r1 b2 r2 hb2
    obtain ⟨-, rfl⟩ := exceptPure_ok2 h
    omega
  · obtain ⟨⟨buf, r2⟩, hbuf, h⟩ := exceptBind_ok h
    try dsimp only at h
    have hl2 := readExact_length 4 r1 buf r2 hbuf
    obtain ⟨-, rfl⟩ := exceptPure_ok2 h
    omega

theorem readString_length (input s rest : List Nat)
    (h : readString input = .ok (s, rest)) : rest.length ≤ input.length := by
  rw [readString] at h
  obtain ⟨⟨b, r1⟩, hb, h⟩ := exceptBind_ok h
  dsimp only at h
  have hl1 := readNextByte_length input b r1 hb
  split_ifs at h
  · have := readExact_length _ _ _ _ h
    omega
  · obtain ⟨⟨b2, r2⟩, hb2, h⟩ := exceptBind_ok h
    try dsimp only at h
    have hl2 := readNextByte_length r1 b2 r2 hb2
    have := readExact_length _ _ _ _ h
    omega
  · obtain ⟨⟨buf, r2⟩, hbuf, h⟩ := exceptBind_ok h
    try dsimp only at h
    have hl2 := readExact_length 4 r1 buf r2 hbuf
    have := readExact_length _ _ _ _ h
    omega
  · obtain ⟨⟨v, r2⟩, hv, h⟩ := exceptBind_ok h
    try dsimp only at h
    have hl2 := readNextByte_length r1 v r2 hv
    obtain ⟨-, rfl⟩ := exceptPure_ok2 h
    omega
  · obtain ⟨⟨buf, r2⟩, hbuf, h⟩ := exceptBind_ok h
    try dsimp only at h
    have hl2 := readExact_length 2 r1 buf r2 hbuf
    obtain ⟨-, rfl⟩ := exceptPure_ok2 h
    omega
  · obtain ⟨⟨buf, r2⟩, hbuf, h⟩ := exceptBind_ok h
    try dsimp only at h
    have hl2 := readExact_length 4 r1 buf r2 hbuf
    obtain ⟨-, rfl⟩ := exceptPure_ok2 h
    omega

theorem readMetadataEntry_length (input : List Nat) (v : RdbValue) (rest : List Nat)
    (h : readMetadataEntry input = .ok (v, rest)) : rest.length ≤ input.length := by
  rw [readMetadataEntry] at h
  obtain ⟨⟨key, r1⟩, hk, h⟩ := exceptBind_ok h
  try dsimp only at h
  obtain ⟨⟨value, r2⟩, hv, h⟩ := exceptBind_ok h
  try dsimp only at h
  have := readString_length _ _ _ hk
  have := readString_length _ _ _ hv
  obtain ⟨-, rfl⟩ := exceptPure_ok2 h
  omega

theorem readEntries_length : ∀ (n : Nat) (db : List (List Nat × ValueType)) (input : List Nat)
    (out : List (List Nat × ValueType)) (rest : List Nat),
    readEntries n db input = .ok (out, rest) → rest.length ≤ input.length := by
  intro n
  induction n with
  | zero =>
    intro db input out rest h
    obtain ⟨-, rfl⟩ := exceptPure_ok2 h
    exact le_refl _
  | succ n ih =>
    intro db input out rest h
    rw [readEntries] at h
    obtain ⟨⟨b, r0⟩, hb, h⟩ := exceptBind_ok h
    dsimp only at h
    have hl0 := readNextByte_length input b r0 hb
    split_ifs at h
    · obtain ⟨⟨key, r1⟩, hk, h⟩ := exceptBind_ok h
      try dsimp only at h
      obtain ⟨⟨value, r2⟩, hv, h⟩ := exceptBind_ok h
      try dsimp only at h
      have := readString_length _ _ _ hk
      have := readString_length _ _ _ hv
      have := ih _ _ _ _ h
      omega
    · obtain ⟨⟨buf, r1⟩, hbuf, h⟩ := exceptBind_ok h
      try dsimp only at h
      obtain ⟨⟨b2, r2⟩, hb2, h⟩ := exceptBind_ok h
      try dsimp only at h
      have := readExact_length _ _ _ _ hbuf
      have := readNextByte_length _ _ _ hb2
      split_ifs at h
      obtain ⟨⟨key, r3⟩, hk, h⟩ := exceptBind_ok h
      try dsimp only at h
      obtain ⟨⟨value, r4⟩, hv, h⟩ := exceptBind_ok h
      try dsimp only at h
      have := readString_length _ _ _ hk
      have := readString_length _ _ _ hv
      have := ih _ _ _ _ h
      omega
    · obtain ⟨⟨buf, r1⟩, hbuf, h⟩ := exceptBind_ok h
      try dsimp only at h
      obtain ⟨⟨b2, r2⟩, hb2, h⟩ := exceptBind_ok h
      try dsimp only at h
      have := readExact_length _ _ _ _ hbuf
      have := readNextByte_length _ _ _ hb2
      split_ifs at h
      obtain ⟨⟨key, r3⟩, hk, h⟩ := exceptBind_ok h
      try dsimp only at h
      obtain ⟨⟨value, r4⟩, hv, h⟩ := exceptBind_ok h
      try dsimp only at h
      have := readString_length _ _ _ hk
      have := readString_length _ _ _ hv
      have := ih _ _ _ _ h
      omega

theorem readDatabase_length (input : List Nat) (v : RdbValue) (rest : List Nat)
    (h : readDatabase input = .ok (v, rest)) : rest.length ≤ input.length := by
  rw [readDatabase] at h
  obtain ⟨⟨idx, r1⟩, hidx, h⟩ := exceptBind_ok h
  try dsimp only at h
  have := readSize_length _ _ _ hidx
  split_ifs at h
  obtain ⟨⟨b, r2⟩, hb, h⟩ := exceptBind_ok h
  try dsimp only at h
  have := readNextByte_length _ _ _ hb
  split_ifs at h
  obtain ⟨⟨nv, r3⟩, hnv, h⟩ := exceptBind_ok h
  try dsimp only at h
  obtain ⟨⟨ne2, r4⟩, hne2, h⟩ := exceptBind_ok h
  try dsimp only at h
  obtain ⟨⟨contents, r5⟩, hc, h⟩ := exceptBind_ok h
  try dsimp only at h
  have := readSize_length _ _ _ hnv
  have := readSize_length _ _ _ hne2
  have := readEntries_length _ _ _ _ _ hc
  obtain ⟨-, rfl⟩ := exceptPure_ok2 h
  omega

theorem readEndOfFile_length (input : List Nat) (v : RdbValue) (rest : List Nat)
    (h : readEndOfFile input = .ok (v, rest)) : rest.length ≤ input.length := by
  rw [readEndOfFile] at h
  obtain ⟨⟨ck, r1⟩, hck, h⟩ := exceptBind_ok h
  try dsimp only at h
  have := readExact_length _ _ _ _ hck
  obtain ⟨-, rfl⟩ := exceptPure_ok2 h
  omega

/-- Every successful read_next_value consumes at least the section tag
byte, so the remainder is strictly shorter. -/
theorem readNextValue_length (input : List Nat) (v : RdbValue) (rest : List Nat)
    (h : readNextValue input = .ok (v, rest)) : rest.length < input.length := by
  rw [readNextValue] at h
  obtain ⟨⟨b, r1⟩, hb, h⟩ := exceptBind_ok h
  dsimp only at h
  have hl1 := readNextByte_length input b r1 hb
  split_ifs at h
  · have := readMetadataEntry_length _ _ _ h
    omega
  · have := readDatabase_length _ _ _ h
    omega
  · have := readEndOfFile_length _ _ _ h
    omega

theorem createLoopF_database (fuel : Nat) (db d : List (List Nat × ValueType))
    (input rest : List Nat) (hfuel : 0 < fuel)
    (h : readNextValue input = .ok (.database d, rest)) :
    createLoopF fuel db input = createLoopF (fuel - 1) d rest := by
  cases fuel with
  | zero => omega
  | succ f =>
    rw [createLoopF, h]
    rfl

theorem createLoopF_endOfFile (fuel : Nat) (db : List (List Nat × ValueType))
    (input : List Nat) (ck : List Nat) (rest : List Nat) (hfuel : 0 < fuel)
    (h : readNextValue input = .ok (.endOfFile ck, rest)) :
    createLoopF fuel db input = .ok db := by
  cases fuel with
  | zero => omega
  | succ f =>
    rw [createLoopF, h]

theorem readHeader_redis_magic (version body : List Nat) (hver : version.length = 4) :
    readHeader (([82, 69, 68, 73, 83] ++ version) ++ body) = .ok (.header version, body) := by
  rw [readHeader]
  have hlen9 : ([82, 69, 68, 73, 83] ++ version).length = 9 := by simp [hver]
  have hex : readExact 9 (([82, 69, 68, 73, 83] ++ version) ++ body) =
      .ok ([82, 69, 68, 73, 83] ++ version, body) := by
    rw [readExact, if_pos (by simp; omega), List.take_left' hlen9, List.drop_left' hlen9]
  rw [hex, exceptOk_bind]
  dsimp only
  rw [if_neg (by rw [List.take_left' (show ([82, 69, 68, 73, 83] : List Nat).length = 5 by simp)]; simp)]
  rw [List.drop_left' (show ([82, 69, 68, 73, 83] : List Nat).length = 5 from by simp)]
  rfl

theorem create_handler_header (version body : List Nat) (hver : version.length = 4) :
    create_handler ([82, 69, 68, 73, 83] ++ (version ++ body)) =
      createLoopF (body.length + 1) [] body := by
  rw [create_handler]
  rw [show [82, 69, 68, 73, 83] ++ (version ++ body) =
    ([82, 69, 68, 73, 83] ++ version) ++ body from by simp]
  rw [readHeader_redis_magic version body hver]

/-- C6 (counterexample): an RDB input whose 9-byte header is immediately
followed by a second REDIS0011 header fails, but with
UnknownStartingByte(82) (82 is the byte R), not with
InvalidFile("Multiple file headers"). -/
theorem c6_second_header_counterexample :
    create_handler (asciiStr ("REDIS0011REDIS0011")) = .error (.unknownStartingByte 82) ∧
      RdbFileError.unknownStartingByte 82 ≠
        RdbFileError.invalidFile ("Multiple file headers") :=
  ⟨rfl, by decide⟩

/-- C6 (amended): a second file header after the initial one is rejected
because its first byte R (82) is not a valid section tag: the section loop
fails with UnknownStartingByte(82) whatever has been decoded so far
(read_next_value never produces a Header value, so the
InvalidFile("Multiple file headers") arm of create_handler is dead code),
and the whole decoder fails the same way on any input whose header is
followed directly by a second header. -/
theorem c6_second_header (db : List (List Nat × ValueType)) (version rest : List Nat)
    (fuel : Nat) (hver : version.length = 4) :
    createLoopF (fuel + 1) db (82 :: rest) = .error (.unknownStartingByte 82) ∧
    create_handler ([82, 69, 68, 73, 83] ++ (version ++ (82 :: rest))) =
      .error (.unknownStartingByte 82) := by
  have hloop : ∀ (f2 : Nat) (db2 : List (List Nat × ValueType)),
      createLoopF (f2 + 1) db2 (82 :: rest) = .error (.unknownStartingByte 82) := by
    intro f2 db2
    rw [createLoopF, show readNextValue (82 :: rest) = .error (.unknownStartingByte 82)
      from rfl]
  constructor
  · exact hloop fuel db
  · rw [create_handler_header version (82 :: rest) hver]
    rw [show (82 :: rest).length + 1 = (rest.length + 1) + 1 from by simp]
    exact hloop (rest.length + 1) []

/-- Witness: C6 with the version 0011 and nothing after the stray R. -/
theorem c6_second_header_witness :
    createLoopF 1 [] [82] = .error (.unknownStartingByte 82) ∧
    create_handler ([82, 69, 68, 73, 83] ++ ([48, 48, 49, 49] ++ (82 :: []))) =
      .error (.unknownStartingByte 82) :=
  c6_second_header [] [48, 48, 49, 49] [] 0 rfl

theorem land_top_bits : ∀ b < 256, 192 ≤ b → (Nat.land b 192) >>> 6 = 3 := by decide

/-- C7: RDB string tags 0xC0, 0xC1 and 0xC2 decode to the ASCII decimal
representation of, respectively, the next byte read as an unsigned
integer, the next two bytes read as a little-endian signed 16-bit integer,
and the next four bytes read as a little-endian signed 32-bit integer; any
other tag byte with top two bits 11 is UnknownStartingByte. -/
theorem c7_rdb_integer_strings :
    (∀ (b : Nat) (rest : List Nat),
      readString (192 :: b :: rest) = .ok (natToDecBytes b, rest)) ∧
    (∀ (b0 b1 : Nat) (rest : List Nat),
      readString (193 :: b0 :: b1 :: rest) = .ok (intToDecBytes (i16OfLe [b0, b1]), rest)) ∧
    (∀ (b0 b1 b2 b3 : Nat) (rest : List Nat),
      readString (194 :: b0 :: b1 :: b2 :: b3 :: rest) =
        .ok (intToDecBytes (i32OfLe [b0, b1, b2, b3]), rest)) ∧
    (∀ (b : Nat) (input : List Nat), 192 ≤ b → b < 256 → b ≠ 192 → b ≠ 193 → b ≠ 194 →
      readString (b :: input) = .error (.unknownStartingByte b)) := by
  refine ⟨fun b rest => rfl, ?_, ?_, ?_⟩
  · intro b0 b1 rest
    have hex : readExact 2 (b0 :: b1 :: rest) = .ok ([b0, b1], rest) := by
      rw [readExact, if_pos (by simp)]
      rfl
    rw [readString, show readNextByte (193 :: b0 :: b1 :: rest) = .ok (193, b0 :: b1 :: rest)
      from rfl, exceptOk_bind]
    dsimp only
    simp only [show (Nat.land 193 192) >>> 6 = 3 from rfl]
    norm_num [hex, Functor.map, Except.map]
  · intro b0 b1 b2 b3 rest
    have hex : readExact 4 (b0 :: b1 :: b2 :: b3 :: rest) =
        .ok ([b0, b1, b2, b3], rest) := by
      rw [readExact, if_pos (by simp)]
      rfl
    rw [readString, show readNextByte (194 :: b0 :: b1 :: b2 :: b3 :: rest) =
      .ok (194, b0 :: b1 :: b2 :: b3 :: rest) from rfl, exceptOk_bind]
    dsimp only
    simp only [show (Nat.land 194 192) >>> 6 = 3 from rfl]
    norm_num [hex, Functor.map, Except.map]
  intro b input h1 h2 h3 h4 h5
  have hl := land_top_bits b h2 h1
  rw [readString, show readNextByte (b :: input) = .ok (b, input) from rfl, exceptOk_bind]
  dsimp only
  simp only [hl]
  simp [h3, h4, h5]

/-- Witness: C7 at the byte vectors of the source tests (123, 12345 and
1234567) and at the unassigned tag 0xC3. -/
theorem c7_rdb_integer_strings_witness :
    readString [192, 123] = .ok (natToDecBytes 123, []) ∧
    readString [193, 57, 48] = .ok (intToDecBytes (i16OfLe [57, 48]), []) ∧
    readString [194, 135, 214, 18, 0] = .ok (intToDecBytes (i32OfLe [135, 214, 18, 0]), []) ∧
    readString [195, 1, 2] = .error (.unknownStartingByte 195) :=
  ⟨c7_rdb_integer_strings.1 123 [], c7_rdb_integer_strings.2.1 57 48 [],
    c7_rdb_integer_strings.2.2.1 135 214 18 0 [],
    c7_rdb_integer_strings.2.2.2 195 [1, 2] (by decide) (by decide) (by decide) (by decide)
      (by decide)⟩

/-- C10: when the section stream after the header decodes two database
sections before the end-of-file marker, the final keyspace is the second
database alone: the database arm of the loop in create_handler replaces
the keyspace accumulated so far, so entries of the earlier section are
discarded, not merged. -/
theorem c10_last_database_wins (version body r1 r2 r3 ck : List Nat)
    (d1 d2 : List (List Nat × ValueType)) (hver : version.length = 4)
    (h1 : readNextValue body = .ok (.database d1, r1))
    (h2 : readNextValue r1 = .ok (.database d2, r2))
    (h3 : readNextValue r2 = .ok (.endOfFile ck, r3)) :
    create_handler ([82, 69, 68, 73, 83] ++ (version ++ body)) = .ok d2 := by
  have l1 := readNextValue_length body _ r1 h1
  have l2 := readNextValue_length r1 _ r2 h2
  rw [create_handler_header version body hver]
  rw [createLoopF_database (body.length + 1) [] d1 body r1 (by omega) h1]
  rw [createLoopF_database (body.length + 1 - 1) d1 d2 r1 r2 (by omega) h2]
  exact createLoopF_endOfFile (body.length + 1 - 1 - 1) d2 r2 ck r3 (by omega) h3

/-- Witness: C10 at a concrete snapshot holding first the binding 97 to 98
and then, in a second database section, the binding 99 to 100; only the
second survives. -/
theorem c10_last_database_wins_witness :
    create_handler ([82, 69, 68, 73, 83] ++ ([48, 48, 49, 49] ++
      [254, 0, 251, 1, 0, 0, 1, 97, 1, 98, 254, 0, 251, 1, 0, 0, 1, 99, 1, 100,
        255, 0, 0, 0, 0, 0, 0, 0, 0])) = .ok [([99], ValueType.mk [100] none)] :=
  c10_last_database_wins [48, 48, 49, 49]
    [254, 0, 251, 1, 0, 0, 1, 97, 1, 98, 254, 0, 251, 1, 0, 0, 1, 99, 1, 100,
      255, 0, 0, 0, 0, 0, 0, 0, 0]
    [254, 0, 251, 1, 0, 0, 1, 99, 1, 100, 255, 0, 0, 0, 0, 0, 0, 0, 0]
    [255, 0, 0, 0, 0, 0, 0, 0, 0] [] [0, 0, 0, 0, 0, 0, 0, 0]
    [([97], ValueType.mk [98] none)] [([99], ValueType.mk [100] none)] rfl rfl rfl rfl

end Redis
